import Mathlib

/-!
Shallow embedding of the server configuration loader of the repository
(`src/server/config.js`) and of the JWT helper (`src/core/utils-server.js`).

JavaScript strings are modelled as Lean `String`, manipulated through
`List Char` so that every operation is structurally recursive and reduces
inside the kernel.  `process.env` is modelled as an association list with
unique keys (which is what `process.env` provides).  A JavaScript value
that may be `undefined` is modelled as an `Option`; a function that may
throw is modelled as `Except String`.

The runtime primitives used by the source (`String.prototype.trim`,
`path.normalize`/`join`/`isAbsolute` for POSIX, `Number.parseInt`, the
WHATWG `URL` class) are modelled below, faithful to the platform's
behaviour on the class of inputs the configuration handles; the
simplifications (no percent-encoding, no IPv6/userinfo hosts in URLs) are
noted where they occur.  `Number.parseInt` is modelled including the
rounding of its result to the nearest IEEE-754 double and the overflow to
`Infinity` that `Number.isFinite` then rejects.
-/

namespace Hyperfy

/-- The whitespace characters removed by `String.prototype.trim` (the ASCII
ones; exotic Unicode space separators are not modelled). -/
def jsIsWhite (c : Char) : Bool :=
  c == ' ' || c == '\t' || c == '\n' || c == '\r' || c == '\x0B' || c == '\x0C'

/-- Left trim on character lists. -/
def ltrimChars (l : List Char) : List Char := l.dropWhile jsIsWhite

/-- Right trim on character lists. -/
def rtrimChars (l : List Char) : List Char := (l.reverse.dropWhile jsIsWhite).reverse

/-- Model of `String.prototype.trim`. -/
def jsTrim (s : String) : String := String.mk (rtrimChars (ltrimChars s.toList))

/-- Boolean prefix test on character lists (structural, proof friendly). -/
def isPrefixOfChars : List Char → List Char → Bool
  | [], _ => true
  | _ :: _, [] => false
  | a :: as, b :: bs => if a = b then isPrefixOfChars as bs else false

/-- Model of `String.prototype.startsWith`. -/
def jsStartsWith (s pre : String) : Bool := isPrefixOfChars pre.toList s.toList

/-- Model of `String.prototype.endsWith`. -/
def jsEndsWith (s suf : String) : Bool := isPrefixOfChars suf.toList.reverse s.toList.reverse

/-- Model of `value.replace(/\/$/, '')`: remove a single trailing slash. -/
def replaceTrailingSlash (s : String) : String :=
  match s.toList.reverse with
  | [] => s
  | c :: rest => if c = '/' then String.mk rest.reverse else s

/-- Split a character list at a separator (like `String.prototype.split`
with a single-character separator: empty fields are kept). -/
def splitChars (sep : Char) : List Char → List Char → List (List Char)
  | [], acc => [acc.reverse]
  | c :: rest, acc =>
    if c = sep then acc.reverse :: splitChars sep rest [] else splitChars sep rest (c :: acc)

/-- Decimal value of a digit string. -/
def digitsToNat (l : List Char) : Nat := l.foldl (fun acc c => acc * 10 + (c.toNat - 48)) 0

/-! ## POSIX path model (`node:path`)

The server resolves paths with Node's POSIX `path` functions; the three
used by the configuration are modelled here. -/

/-- Model of POSIX `path.isAbsolute`. -/
def pathIsAbsolute (p : String) : Bool := jsStartsWith p "/"

/-- One step of Node's `normalizeString` segment resolution: the
accumulator holds the already-resolved segments in reverse order.
On `..`: pop a poppable segment, else (for relative paths) emit `..`,
else (for absolute paths) drop it. -/
def normStep (allowAboveRoot : Bool) (acc : List String) (seg : String) : List String :=
  if seg = ".." then
    match acc with
    | [] => if allowAboveRoot then [".."] else []
    | top :: rest =>
      if top = ".." then (if allowAboveRoot then ".." :: acc else acc) else rest
  else seg :: acc

/-- Model of POSIX `path.normalize`. -/
def pathNormalize (p : String) : String :=
  if p.toList = [] then "."
  else
    let isAbs := jsStartsWith p "/"
    let trailingSep := jsEndsWith p "/"
    let segs := (splitChars '/' p.toList []).map String.mk
    let kept := segs.filter (fun seg => seg ≠ "" && seg ≠ ".")
    let resolved := (kept.foldl (normStep (!isAbs)) []).reverse
    let joined := String.intercalate "/" resolved
    if joined.toList = [] then
      if isAbs then "/" else if trailingSep then "./" else "."
    else
      let withTrail := if trailingSep then joined ++ "/" else joined
      if isAbs then "/" ++ withTrail else withTrail

/-- Model of POSIX `path.join` on two components: non-empty components are
joined with `/` and the result normalised. -/
def pathJoin (a b : String) : String :=
  let parts := [a, b].filter (fun s => s.toList ≠ [])
  if parts = [] then "." else pathNormalize (String.intercalate "/" parts)

/-! ## `Number.parseInt(value, 10)`

`parseInt` skips leading whitespace, accepts an optional sign and then the
longest prefix of decimal digits, returning `NaN` when no digit is
present; `Number.parseInt(undefined, 10)` stringifies its argument to
`"undefined"` and therefore yields `NaN`.  The numeric result is a 64-bit
IEEE-754 double: the digit value is rounded to the nearest double (ties to
even), and magnitudes at or above `2^1024 - 2^970` overflow to `Infinity`.
Both `NaN` and `Infinity` are modelled as `none`, because the sole
consumer, `parseInteger`, rejects exactly the values failing
`Number.isFinite`. -/

/-- Fuelled binary logarithm (`2 ^ log2fuel fuel n ≤ n` for `n ≥ 1` when
the fuel covers the bit length); structural recursion on the fuel keeps it
kernel-reducible, and callers below pass fuel `1024` after having ruled
out values of `2^1024` or more. -/
def log2fuel : Nat → Nat → Nat
  | 0, _ => 0
  | fuel + 1, n => if 2 ≤ n then log2fuel fuel (n / 2) + 1 else 0

/-- Round a natural number to the nearest IEEE-754 double (round half to
even), exactly: values below `2^53` are representable; a larger value is
rounded to the nearest multiple of its binade's unit in the last place;
values at or above `2^1024 - 2^970` round past the largest finite double,
giving `Infinity` (`none`). -/
def roundToDouble (n : Nat) : Option Nat :=
  if n < 2 ^ 53 then some n
  else if 2 ^ 1024 - 2 ^ 970 ≤ n then none
  else
    let e := log2fuel 1024 n
    let u := 2 ^ (e - 52)
    let q := n / u
    let r := n % u
    let q2 := if u / 2 < r || (decide (r = u / 2) && decide (q % 2 = 1)) then q + 1 else q
    some (q2 * u)

/-- Model of `Number.parseInt(value, 10)` followed by the
`Number.isFinite` test of `parseInteger`: `none` models `NaN` (no digits)
and `±Infinity` (overflow), `some` the finite double value, which beyond
`2^53` is the correctly rounded digit value. -/
def jsParseIntBase10 (v : Option String) : Option Int :=
  let s := match v with | none => "undefined" | some s => s
  let chars := s.toList.dropWhile jsIsWhite
  let signAndRest : Int × List Char :=
    match chars with
    | '-' :: rest => (-1, rest)
    | '+' :: rest => (1, rest)
    | _ => (1, chars)
  let digits := signAndRest.2.takeWhile Char.isDigit
  if digits = [] then none
  else
    match roundToDouble (digitsToNat digits) with
    | none => none
    | some m => some (signAndRest.1 * (m : Int))

/-! ## WHATWG `URL` model

`normaliseUrl` relies on the platform's `URL` class.  The model below
covers the grammar the configuration deals in: a scheme, for special
schemes (`http`, `https`, `ws`, `wss`, `ftp`) an authority of the form
`host[:port]` followed by a path, for other schemes an opaque remainder.
Userinfo (`user@host`), IPv6 literal hosts, percent-encoding and
dot-segment normalisation of serialized paths are not modelled; none of
them occur in the configuration's inputs or defaults.  The serialization
lowercases scheme and host, omits a default port, and gives special-scheme
URLs at least the path `/` — as `url.toString()` does. -/

/-- ASCII lowercasing of one character. -/
def asciiLowerChar (c : Char) : Char :=
  if 'A' ≤ c && c ≤ 'Z' then Char.ofNat (c.toNat + 32) else c

/-- ASCII lowercasing of a string. -/
def lowerStr (s : String) : String := String.mk (s.toList.map asciiLowerChar)

/-- A scheme is an ASCII letter followed by letters, digits, `+`, `-`, `.`. -/
def isSchemeChar (c : Char) : Bool :=
  c.isAlpha || c.isDigit || c == '+' || c == '-' || c == '.'

/-- Split `scheme:rest`, or fail when the string has no scheme prefix
(this is the case for every string starting with `/`). -/
def splitSchemeChars : List Char → Option (String × String)
  | [] => none
  | c :: rest =>
    if c.isAlpha then
      match rest.dropWhile isSchemeChar with
      | [] => none
      | c2 :: tail =>
        if c2 = ':' then some (String.mk (c :: rest.takeWhile isSchemeChar), String.mk tail)
        else none
    else none

/-- The special schemes relevant here and their default ports. -/
def specialSchemes : List String := ["http", "https", "ws", "wss", "ftp"]

/-- Default port of a special scheme. -/
def specialDefaultPort (scheme : String) : Nat :=
  if scheme == "http" || scheme == "ws" then 80
  else if scheme == "https" || scheme == "wss" then 443
  else 21

/-- Characters ending the authority component of a special-scheme URL. -/
def authDelim (c : Char) : Bool := c == '/' || c == '?' || c == '#' || c == '\\'

/-- Parse `host[:port]`; the host must be non-empty, a non-empty port must
be decimal digits and at most 65535 (the `URL` constructor throws
otherwise). -/
def parseHostPort (auth : List Char) : Option (String × Option Nat) :=
  let hostChars := auth.takeWhile (fun c => !(c == ':'))
  if hostChars = [] then none
  else
    match auth.dropWhile (fun c => !(c == ':')) with
    | [] => some (String.mk hostChars, none)
    | _ :: pcs =>
      if pcs = [] then some (String.mk hostChars, none)
      else if pcs.all Char.isDigit then
        if digitsToNat pcs ≤ 65535 then some (String.mk hostChars, some (digitsToNat pcs))
        else none
      else none

/-- Serialized path: empty becomes `/`, a query or fragment right after the
authority gets `/` prepended. -/
def serializePath (l : List Char) : String :=
  match l with
  | [] => "/"
  | c :: _ => if c == '?' || c == '#' then "/" ++ String.mk l else String.mk l

/-- The result of a successful `new URL(...)`: its `protocol` property and
its `toString()` serialization. -/
structure JsURL where
  protocol : String
  serialization : String
deriving DecidableEq

/-- Parse the part after `scheme:` of a special-scheme URL: any run of
slashes, then a non-empty authority, then the path. -/
def parseSpecialURL (scheme : String) (rest : String) : Option JsURL :=
  let afterSlashes := rest.toList.dropWhile (fun c => c == '/' || c == '\\')
  let auth := afterSlashes.takeWhile (fun c => !(authDelim c))
  let tail := afterSlashes.dropWhile (fun c => !(authDelim c))
  if auth = [] then none
  else
    match parseHostPort auth with
    | none => none
    | some (host, port) =>
      let portStr :=
        match port with
        | none => ""
        | some p => if p = specialDefaultPort scheme then "" else ":" ++ toString p
      some ⟨scheme ++ ":", scheme ++ "://" ++ lowerStr host ++ portStr ++ serializePath tail⟩

/-- Model of `new URL(s)` (without a base): `none` models the thrown
`TypeError`. -/
def parseURL (s : String) : Option JsURL :=
  match splitSchemeChars s.toList with
  | none => none
  | some (rawScheme, rest) =>
    let scheme := lowerStr rawScheme
    if specialSchemes.contains scheme then parseSpecialURL scheme rest
    else some ⟨scheme ++ ":", scheme ++ ":" ++ rest⟩

/-! ## The environment

`process.env` is a string-keyed map with string values (absent keys read
as `undefined`); it is modelled as an association list with unique keys,
in insertion order (which is what `Object.entries` observes). -/

/-- An environment. -/
abbrev Env := List (String × String)

/-- Lookup of `process.env[key]` (and of a key in any plain record). -/
def jsLookup (l : Env) (k : String) : Option String :=
  (l.find? (fun kv => kv.1 == k)).map (fun kv => kv.2)

/-! ## Primitive validators (`src/server/config.js`) -/

/-- The options record of `readEnv`.  `defaultValue = none` models an
absent (`undefined`) default.  Fields in source order:
`required`, `defaultValue`, `allowEmpty`. -/
structure ReadEnvOptions where
  required : Bool
  defaultValue : Option String
  allowEmpty : Bool

/-- `readEnv(key, { required, defaultValue, allowEmpty })`:
`.ok none` models the function returning `undefined`, `.error` models the
thrown `Error`. -/
def readEnv (env : Env) (key : String) (opts : ReadEnvOptions) : Except String (Option String) :=
  match jsLookup env key with
  | none =>
    match opts.defaultValue with
    | some d => Except.ok (some d)
    | none =>
      if opts.required then Except.error ("Environment variable " ++ key ++ " is required")
      else Except.ok none
  | some rawValue =>
    let value := jsTrim rawValue
    if !opts.allowEmpty && value.toList = [] then
      match opts.defaultValue with
      | some d => Except.ok (some d)
      | none =>
        if opts.required then Except.error ("Environment variable " ++ key ++ " cannot be empty")
        else Except.ok none
    else Except.ok (some value)

/-- `ensureRelativePath(value, key)`.  The `none` argument models being
called on `undefined` (where `path.isAbsolute` throws a `TypeError`);
the assembler never reaches that case. -/
def ensureRelativePath (value : Option String) (key : String) : Except String String :=
  match value with
  | none => Except.error "TypeError: the path argument must be of type string"
  | some v =>
    if pathIsAbsolute v then
      Except.error (key ++ " must be a relative path inside the repository")
    else
      let normalised := pathNormalize v
      if jsStartsWith normalised ".." then
        Except.error (key ++ " must not traverse outside of the repository")
      else Except.ok normalised

/-- The options record of `parseInteger`, fields in source order:
`min`, `max` (`none` models an absent bound), `allowZero` (source default
`true`; the assembler never overrides it). -/
structure ParseIntegerOptions where
  min : Option Int
  max : Option Int
  allowZero : Bool

/-- `parseInteger(value, key, { min, max, allowZero })`. -/
def parseInteger (value : Option String) (key : String) (opts : ParseIntegerOptions) :
    Except String Int :=
  match jsParseIntBase10 value with
  | none => Except.error (key ++ " must be a valid integer")
  | some parsed =>
    if !opts.allowZero && parsed = 0 then Except.error (key ++ " cannot be zero")
    else if (match opts.min with | some m => decide (parsed < m) | none => false) then
      Except.error (key ++ " must be >= " ++ toString (opts.min.getD 0))
    else if (match opts.max with | some m => decide (m < parsed) | none => false) then
      Except.error (key ++ " must be <= " ++ toString (opts.max.getD 0))
    else Except.ok parsed

/-- The body of `normaliseUrl`'s `try` block: parse as absolute URL, check
the whitelist, serialize with one trailing slash stripped.  Both the
`TypeError` of `new URL` and the protocol `Error` surface as `.error` —
and both are caught by the `catch` in `normaliseUrl` below. -/
def normaliseUrlTry (trimmed key : String) (protocolWhitelist : Option (List String)) :
    Except String String :=
  match parseURL trimmed with
  | none => Except.error ("TypeError: Invalid URL: " ++ trimmed)
  | some url =>
    match protocolWhitelist with
    | some wl =>
      if wl.contains url.protocol then Except.ok (replaceTrailingSlash url.serialization)
      else
        Except.error
          (key ++ " must use one of the following protocols: " ++ String.intercalate ", " wl)
    | none => Except.ok (replaceTrailingSlash url.serialization)

/-- `normaliseUrl(value, key, { protocolWhitelist })`.  Any error raised
inside the `try` block falls into the `catch`, which accepts the trimmed
value when it starts with `/` and otherwise raises the generic error. -/
def normaliseUrl (value : Option String) (key : String)
    (protocolWhitelist : Option (List String)) : Except String String :=
  match value with
  | none => Except.error "TypeError: cannot read trim of undefined"
  | some v =>
    let trimmed := jsTrim v
    match normaliseUrlTry trimmed key protocolWhitelist with
    | Except.ok s => Except.ok s
    | Except.error _ =>
      if jsStartsWith trimmed "/" then Except.ok (replaceTrailingSlash trimmed)
      else Except.error (key ++ " must be a valid absolute URL or start with '/'")

/-! ## `buildPublicEnv` -/

/-- Model of the object spread `{ ...a, ...b }` on unique-key records:
keys of `a` keep their position, values overridden by `b`; keys only in
`b` are appended in order. -/
def jsSpreadMerge (a b : Env) : Env :=
  a.map (fun kv => (kv.1, (jsLookup b kv.1).getD kv.2)) ++
    b.filter (fun kv => (jsLookup a kv.1).isNone)

/-- `buildPublicEnv(overrides)`: every `PUBLIC_`-prefixed environment
entry, overlaid with `overrides`.  The value coercions of the source
(`String(value)`, `merged[key] ?? ''`) are identities here because the
modelled environment maps to strings, never `undefined`/`null`;
`Object.freeze` needs no counterpart on immutable values. -/
def buildPublicEnv (env : Env) (overrides : Env) : Env :=
  jsSpreadMerge (env.filter (fun kv => jsStartsWith kv.1 "PUBLIC_")) overrides

/-! ## The configuration record -/

/-- `config.world`. -/
structure WorldConfig where
  name : String
  dir : String
  assetsDir : String
  collectionsDir : String
deriving DecidableEq

/-- `config.server`. -/
structure ServerSection where
  port : Int
  saveInterval : Int
deriving DecidableEq

/-- `config.auth`.  `jwtSecret` is kept as the value `readEnv` produced
(`none` is unreachable: the key is required with no default). -/
structure AuthSection where
  jwtSecret : Option String
  adminCode : Option String
  hasAdminCode : Bool
deriving DecidableEq

/-- `config.public`. -/
structure PublicSection where
  assetsUrl : String
  apiUrl : String
  wsUrl : String
  maxUploadSize : Int
  env : Env
deriving DecidableEq

/-- `config.livekit`. -/
structure LivekitSection where
  wsUrl : Option String
  apiKey : Option String
  apiSecret : Option String
deriving DecidableEq

/-- The frozen record returned by `buildServerConfig` (the source field
`public` is named `publicSection` here; `public` only to avoid clashing
with Lean-side naming conventions). -/
structure ServerConfig where
  rootDir : String
  world : WorldConfig
  server : ServerSection
  auth : AuthSection
  publicSection : PublicSection
  livekit : LivekitSection
  commitHash : Option String
deriving DecidableEq

/-- `x || null` on an optional string: empty string and `undefined` are
falsy and become `null` (`none`). -/
def jsOrNull (v : Option String) : Option String :=
  match v with
  | none => none
  | some s => if s.toList = [] then none else some s

/-- Truthiness of an optional string (`!!x`). -/
def jsTruthyStr (v : Option String) : Bool :=
  match v with
  | none => false
  | some s => !(s.toList = [])

/-- `.length > 0` of an optional string (only consulted after a truthiness
guard in the source). -/
def optLengthPos (v : Option String) : Bool :=
  match v with
  | none => false
  | some s => decide (0 < s.length)

/-- `buildServerConfig(options)`, with the resolved root directory as an
explicit parameter (the source derives it from `options.rootDir` or the
module location, outside the modelled core).  Field order and validator
calls mirror the source; a thrown error aborts construction. -/
def buildServerConfig (env : Env) (rootDir : String) : Except String ServerConfig := do
  let worldRaw ← readEnv env "WORLD" ⟨true, none, false⟩
  let worldName ← ensureRelativePath worldRaw "WORLD"
  let worldDir := pathJoin rootDir worldName
  let assetsDir := pathJoin worldDir "assets"
  let collectionsDir := pathJoin worldDir "collections"
  let portRaw ← readEnv env "PORT" ⟨false, some "3000", false⟩
  let port ← parseInteger portRaw "PORT" ⟨some 1, some 65535, true⟩
  let saveRaw ← readEnv env "SAVE_INTERVAL" ⟨false, some "60", false⟩
  let saveInterval ← parseInteger saveRaw "SAVE_INTERVAL" ⟨some 0, none, true⟩
  let jwtSecret ← readEnv env "JWT_SECRET" ⟨true, none, false⟩
  let assetsRaw ← readEnv env "PUBLIC_ASSETS_URL"
    ⟨false, some ("http://localhost:" ++ toString port ++ "/assets"), false⟩
  let publicAssetsUrl ← normaliseUrl assetsRaw "PUBLIC_ASSETS_URL" none
  let apiRaw ← readEnv env "PUBLIC_API_URL"
    ⟨false, some ("http://localhost:" ++ toString port ++ "/api"), false⟩
  let publicApiUrl ← normaliseUrl apiRaw "PUBLIC_API_URL" none
  let wsRaw ← readEnv env "PUBLIC_WS_URL"
    ⟨false, some ("ws://localhost:" ++ toString port ++ "/ws"), false⟩
  let publicWsUrl ← normaliseUrl wsRaw "PUBLIC_WS_URL" (some ["ws:", "wss:"])
  let maxRaw ← readEnv env "PUBLIC_MAX_UPLOAD_SIZE" ⟨false, some "12", false⟩
  let publicMaxUploadSize ← parseInteger maxRaw "PUBLIC_MAX_UPLOAD_SIZE" ⟨some 1, none, true⟩
  let adminCode ← readEnv env "ADMIN_CODE" ⟨false, none, true⟩
  let hasAdminCode := jsTruthyStr adminCode && optLengthPos adminCode
  let commitRaw ← readEnv env "COMMIT_HASH" ⟨false, none, true⟩
  let lkWsRaw ← readEnv env "LIVEKIT_WS_URL" ⟨false, none, true⟩
  let lkKeyRaw ← readEnv env "LIVEKIT_API_KEY" ⟨false, none, true⟩
  let lkSecretRaw ← readEnv env "LIVEKIT_API_SECRET" ⟨false, none, true⟩
  let publicEnv := buildPublicEnv env
    [("PUBLIC_ASSETS_URL", publicAssetsUrl), ("PUBLIC_API_URL", publicApiUrl),
     ("PUBLIC_WS_URL", publicWsUrl), ("PUBLIC_MAX_UPLOAD_SIZE", toString publicMaxUploadSize)]
  return {
      rootDir := rootDir
      world :=
        { name := worldName, dir := worldDir, assetsDir := assetsDir,
          collectionsDir := collectionsDir }
      server := { port := port, saveInterval := saveInterval }
      auth :=
        { jwtSecret := jwtSecret, adminCode := jsOrNull adminCode,
          hasAdminCode := hasAdminCode }
      publicSection :=
        { assetsUrl := publicAssetsUrl, apiUrl := publicApiUrl, wsUrl := publicWsUrl,
          maxUploadSize := publicMaxUploadSize, env := publicEnv }
      livekit :=
        { wsUrl := jsOrNull lkWsRaw, apiKey := jsOrNull lkKeyRaw,
          apiSecret := jsOrNull lkSecretRaw }
      commitHash := jsOrNull commitRaw }

/-- `Except.isOk = false` phrased positively: the computation threw. -/
def isError {α : Type} (e : Except String α) : Bool :=
  match e with
  | Except.error _ => true
  | Except.ok _ => false

/-! ## `readJWT` (`src/core/utils-server.js`)

`jwt.verify(token, secret, cb)` is an external library call; it is
abstracted as a function producing either an error or a decoded payload,
handed to the callback as `(err, data)`.  The promise executor calls
`resolve(err ? null : data)` and never `reject`. -/

/-- Settlement of a JavaScript promise. -/
inductive PromiseResult (α : Type) where
  | resolved (value : α)
  | rejected (err : String)
deriving DecidableEq

/-- `readJWT(token)`, parameterised by the external verifier and by the
configured secret. -/
def readJWT {α : Type} (verify : String → String → Except String α)
    (jwtSecret : String) (token : String) : PromiseResult (Option α) :=
  match verify token jwtSecret with
  | Except.error _ => PromiseResult.resolved none
  | Except.ok data => PromiseResult.resolved (some data)

/-! ## Environment fixtures used by the claims -/

/-- A minimal valid environment: the two required keys. -/
def envTown : Env := [("WORLD", "town/main"), ("JWT_SECRET", "s")]

/-- `envTown` with a `PORT` value. -/
def envPort (p : String) : Env :=
  [("WORLD", "town/main"), ("JWT_SECRET", "s"), ("PORT", p)]

/-- `envTown` with a `PUBLIC_WS_URL` value. -/
def envWS (v : String) : Env :=
  [("WORLD", "town/main"), ("JWT_SECRET", "s"), ("PUBLIC_WS_URL", v)]

/-- `envTown` with `PUBLIC_ASSETS_URL` set to `/`. -/
def envRootSlash : Env :=
  [("WORLD", "town/main"), ("JWT_SECRET", "s"), ("PUBLIC_ASSETS_URL", "/")]

/-- Environment with a custom public variable and a raw `PUBLIC_WS_URL`
that the derived value must shadow. -/
def envPublicExtra : Env :=
  [("WORLD", "town/main"), ("JWT_SECRET", "s"), ("PUBLIC_FOO", "bar"),
   ("PUBLIC_WS_URL", "wss://example.com/")]

/-- `envTown` without `WORLD`. -/
def envNoWorld : Env := [("JWT_SECRET", "s")]

/-- `envTown` without `JWT_SECRET`. -/
def envNoJwt : Env := [("WORLD", "town/main")]

/-- A verifier that accepts every token with payload `7` (used to
exercise `readJWT` on the success path). -/
def c9VerifyOk : String → String → Except String Nat := fun _ _ => Except.ok 7

/-- A verifier that rejects every token (expiry/tampering path). -/
def c9VerifyBad : String → String → Except String Nat := fun _ _ => Except.error "tampered"

/-! ## Supporting lemmas -/

/-- Unfolding lemma for `String.toList` on an explicit character list. -/
theorem toList_mk (l : List Char) : (String.mk l).toList = l := rfl

/-- The head surviving a `dropWhile` fails the predicate. -/
theorem dropWhile_head_false {p : Char → Bool} {l t : List Char} {c : Char}
    (h : l.dropWhile p = c :: t) : p c = false := by
  induction l with
  | nil => simp [List.dropWhile] at h
  | cons a as ih =>
    by_cases ha : p a
    · rw [List.dropWhile_cons_of_pos ha] at h
      exact ih h
    · rw [List.dropWhile_cons_of_neg ha] at h
      injection h with h1 _
      subst h1
      simpa using ha

/-- Right trimming yields a prefix of the list. -/
theorem rtrimChars_prefix (l : List Char) : ∃ t, l = rtrimChars l ++ t := by
  obtain ⟨u, hu⟩ := List.dropWhile_suffix (l := l.reverse) jsIsWhite
  refine ⟨u.reverse, ?_⟩
  have h2 := congrArg List.reverse hu
  simp only [List.reverse_append, List.reverse_reverse] at h2
  rw [rtrimChars]
  exact h2.symm

/-- A non-empty trimmed string never starts with a whitespace character:
in particular it is never whitespace-only. -/
theorem jsTrim_head_not_white {s : String} {c : Char} {t : List Char}
    (h : (jsTrim s).toList = c :: t) : jsIsWhite c = false := by
  have hx : rtrimChars (ltrimChars s.toList) = c :: t := h
  obtain ⟨u, hu⟩ := rtrimChars_prefix (ltrimChars s.toList)
  rw [hx] at hu
  exact dropWhile_head_false (p := jsIsWhite) (l := s.toList) (t := t ++ u)
    (by simpa [ltrimChars] using hu)

/-- A string accepted by the URL parser begins with a scheme letter, hence
never with `/`. -/
theorem parseURL_some_startsWith_false {s : String} {u : JsURL}
    (h : parseURL s = some u) : jsStartsWith s "/" = false := by
  have hone : ("/" : String).toList = ['/'] := rfl
  rw [jsStartsWith, hone]
  cases hl : s.toList with
  | nil => rfl
  | cons c rest =>
    by_cases hc : ('/' : Char) = c
    · exfalso
      subst hc
      have halpha : ('/' : Char).isAlpha = false := by decide
      rw [parseURL, hl] at h
      simp [splitSchemeChars, halpha] at h
    · simp [isPrefixOfChars, hc]

/-- `replaceTrailingSlash` leaves a trailing slash only when the input
ended in two. -/
theorem replaceTrailingSlash_double_slash {s : String}
    (h : jsEndsWith (replaceTrailingSlash s) "/" = true) : jsEndsWith s "//" = true := by
  have hone : ("/" : String).toList.reverse = ['/'] := rfl
  have htwo : ("//" : String).toList.reverse = ['/', '/'] := rfl
  rw [jsEndsWith, htwo]
  rw [jsEndsWith, hone] at h
  cases hr : s.toList.reverse with
  | nil =>
    simp only [replaceTrailingSlash, hr] at h
    simp [isPrefixOfChars] at h
  | cons c rest =>
    by_cases hc : c = '/'
    · subst hc
      simp only [replaceTrailingSlash, hr, if_pos rfl, if_true, List.reverse_reverse] at h
      simpa [isPrefixOfChars] using h
    · have hns : ¬(('/' : Char) = c) := fun hh => hc hh.symm
      simp only [replaceTrailingSlash, hr, if_neg hc] at h
      simp [isPrefixOfChars, hns] at h

/-- `jsLookup` on a cons cell. -/
theorem jsLookup_cons (kv : String × String) (t : Env) (k : String) :
    jsLookup (kv :: t) k = if kv.1 == k then some kv.2 else jsLookup t k := by
  simp only [jsLookup, List.find?]
  cases h : kv.1 == k <;> simp [h]

/-- `jsLookup` distributes over append like JavaScript property lookup on
a concatenated record. -/
theorem jsLookup_append (a b : Env) (k : String) :
    jsLookup (a ++ b) k = (jsLookup a k).orElse (fun _ => jsLookup b k) := by
  induction a with
  | nil => simp [jsLookup, Option.orElse]
  | cons kv t ih =>
    rw [List.cons_append, jsLookup_cons, jsLookup_cons]
    by_cases h : kv.1 == k
    · rw [if_pos h, if_pos h]; rfl
    · rw [if_neg h, if_neg h]; exact ih

/-- Lookup in the overridden copy of the spread's left operand. -/
theorem jsLookup_overlay (a b : Env) (k : String) :
    jsLookup (a.map (fun kv => (kv.1, (jsLookup b kv.1).getD kv.2))) k =
      (jsLookup a k).map (fun v => (jsLookup b k).getD v) := by
  induction a with
  | nil => simp [jsLookup]
  | cons kv t ih =>
    rw [List.map_cons, jsLookup_cons, jsLookup_cons]
    by_cases h : kv.1 == k
    · have h1 : kv.1 = k := beq_iff_eq.mp h
      rw [if_pos h, if_pos h, h1]
      rfl
    · rw [if_neg h, if_neg h]
      exact ih

/-- Lookup of an absent-on-the-left key in the appended part of the
spread. -/
theorem jsLookup_filter_none (a b : Env) (k : String) (ha : jsLookup a k = none) :
    jsLookup (b.filter (fun kv => (jsLookup a kv.1).isNone)) k = jsLookup b k := by
  induction b with
  | nil => rfl
  | cons kv t ih =>
    rw [List.filter_cons]
    split
    · rw [jsLookup_cons, jsLookup_cons, ih]
    · rename_i hcond
      have hk : (kv.1 == k) = false := by
        cases hbe : kv.1 == k
        · rfl
        · have hcontra : (jsLookup a kv.1).isNone = true := by
            rw [beq_iff_eq.mp hbe, ha]; rfl
          exact absurd hcontra hcond
      rw [ih, jsLookup_cons, if_neg (by simp [hk])]

/-- Lookup through the spread when the key exists on the left: the right
operand's value wins, else the left value remains. -/
theorem jsSpreadMerge_lookup_left {a b : Env} {k v : String}
    (h : jsLookup a k = some v) :
    jsLookup (jsSpreadMerge a b) k = some ((jsLookup b k).getD v) := by
  rw [jsSpreadMerge, jsLookup_append, jsLookup_overlay, h]
  rfl

/-- Lookup through the spread when the key is absent on the left. -/
theorem jsSpreadMerge_lookup_right {a b : Env} {k : String}
    (h : jsLookup a k = none) :
    jsLookup (jsSpreadMerge a b) k = jsLookup b k := by
  rw [jsSpreadMerge, jsLookup_append, jsLookup_overlay, h]
  simpa [Option.orElse] using jsLookup_filter_none a b k h

/-- Filtering on a key predicate preserves lookup of keys satisfying it. -/
theorem jsLookup_filter_pred_true {l : Env} {k : String} {p : String → Bool}
    (hp : p k = true) :
    jsLookup (l.filter (fun kv => p kv.1)) k = jsLookup l k := by
  induction l with
  | nil => rfl
  | cons kv t ih =>
    rw [List.filter_cons]
    split
    · rw [jsLookup_cons, jsLookup_cons, ih]
    · rename_i hcond
      have hk : (kv.1 == k) = false := by
        cases hbe : kv.1 == k
        · rfl
        · have hcontra : p kv.1 = true := by rw [beq_iff_eq.mp hbe]; exact hp
          exact absurd hcontra hcond
      rw [ih, jsLookup_cons, if_neg (by simp [hk])]

/-- Filtering on a key predicate erases keys violating it. -/
theorem jsLookup_filter_pred_false {l : Env} {k : String} {p : String → Bool}
    (hp : p k = false) :
    jsLookup (l.filter (fun kv => p kv.1)) k = none := by
  induction l with
  | nil => rfl
  | cons kv t ih =>
    rw [List.filter_cons]
    split
    · rename_i hcond
      have hk : (kv.1 == k) = false := by
        cases hbe : kv.1 == k
        · rfl
        · have h1 : kv.1 = k := beq_iff_eq.mp hbe
          rw [h1, hp] at hcond
          exact absurd hcond (by simp)
      rw [jsLookup_cons, if_neg (by simp [hk]), ih]
    · exact ih

/-- A value parsing as an absolute URL with a scheme outside the whitelist
makes the `try` block raise the protocol error, and the surrounding
`catch` then raises the generic error (such a value cannot begin with
`/`). -/
theorem normaliseUrl_nonwhitelisted {v key : String} {wl : List String} {url : JsURL}
    (hp : parseURL (jsTrim v) = some url) (hc : wl.contains url.protocol = false) :
    normaliseUrlTry (jsTrim v) key (some wl) =
      Except.error (key ++ " must use one of the following protocols: " ++
        String.intercalate ", " wl)
    ∧ normaliseUrl (some v) key (some wl) =
      Except.error (key ++ " must be a valid absolute URL or start with '/'") := by
  have h1 : normaliseUrlTry (jsTrim v) key (some wl) =
      Except.error (key ++ " must use one of the following protocols: " ++
        String.intercalate ", " wl) := by
    simp only [normaliseUrlTry, hp, hc, Bool.false_eq_true, if_false]
  refine ⟨h1, ?_⟩
  have hs := parseURL_some_startsWith_false hp
  simp only [normaliseUrl, h1]
  simp [hs]

/-! ## Claim theorems -/

/-- Claim C1: for every WORLD input value, `ensureRelativePath` fails when
the value is an absolute path or when its normalization begins with a
parent-directory traversal marker, and otherwise returns the normalized
relative path; it rejects `/etc`, `../../secrets` and `a/../../b`, accepts
`a/b` and `./a` (returning `a`); and for the accepted value `town/main`
the configuration's `world.dir` is the root directory joined with
`town/main` and `world.assetsDir` is that joined with `assets`. -/
theorem c1_ensureRelativePath :
    (∀ v : String, pathIsAbsolute v = true →
      isError (ensureRelativePath (some v) "WORLD") = true)
    ∧ (∀ v : String, pathIsAbsolute v = false →
        jsStartsWith (pathNormalize v) ".." = true →
        isError (ensureRelativePath (some v) "WORLD") = true)
    ∧ (∀ v : String, pathIsAbsolute v = false →
        jsStartsWith (pathNormalize v) ".." = false →
        ensureRelativePath (some v) "WORLD" = Except.ok (pathNormalize v))
    ∧ isError (ensureRelativePath (some "/etc") "WORLD") = true
    ∧ isError (ensureRelativePath (some "../../secrets") "WORLD") = true
    ∧ isError (ensureRelativePath (some "a/../../b") "WORLD") = true
    ∧ ensureRelativePath (some "a/b") "WORLD" = Except.ok "a/b"
    ∧ ensureRelativePath (some "./a") "WORLD" = Except.ok "a"
    ∧ (buildServerConfig envTown "/repo").map (fun c => c.world.dir) =
        Except.ok (pathJoin "/repo" "town/main")
    ∧ (buildServerConfig envTown "/repo").map (fun c => c.world.assetsDir) =
        Except.ok (pathJoin (pathJoin "/repo" "town/main") "assets") := by
  refine ⟨fun v hv => ?_, fun v h1 h2 => ?_, fun v h1 h2 => ?_,
    rfl, rfl, rfl, rfl, rfl, rfl, rfl⟩
  · simp [ensureRelativePath, hv, isError]
  · simp [ensureRelativePath, h1, h2, isError]
  · simp [ensureRelativePath, h1, h2]

/-- Witness for C1 at the concrete inputs `/etc` and `./a`. -/
theorem c1_witness :
    isError (ensureRelativePath (some "/etc") "WORLD") = true
    ∧ ensureRelativePath (some "./a") "WORLD" = Except.ok (pathNormalize "./a") :=
  ⟨c1_ensureRelativePath.1 "/etc" rfl, c1_ensureRelativePath.2.2.1 "./a" rfl rfl⟩

/-- Claim C4 counterexample: `parseInteger` does NOT fail on the
fractional input `12.5`; `Number.parseInt` truncates it to `12`, which is
accepted. -/
theorem c4_counterexample :
    parseInteger (some "12.5") "PORT" ⟨some 1, some 65535, true⟩ = Except.ok 12 := rfl

set_option maxRecDepth 8000 in
/-- Claim C4 (amended): `parseInteger` parses its input with
`Number.parseInt` in base 10 — optional whitespace and sign, then the
longest prefix of decimal digits, the value rounded to the nearest
IEEE-754 double — and fails when the result is not a finite number (no
digits give `NaN`; magnitudes of `2^1024 - 2^970` or more give
`Infinity`), when the result is zero and `allowZero` is false, or when
the result lies outside the inclusive bounds `[min, max]`; non-numeric
input fails, but fractional input such as `12.5` is truncated to its
integer part and accepted.  In particular a 309-digit `SAVE_INTERVAL` is
rejected even though that key has no `max` bound, and `2^53 + 1` parses
to the even neighbour `2^53`. -/
theorem c4_parseInteger :
    (∀ (s key : String) (opts : ParseIntegerOptions),
        jsParseIntBase10 (some s) = none →
        isError (parseInteger (some s) key opts) = true)
    ∧ (∀ (s key : String) (opts : ParseIntegerOptions) (n : Int),
        jsParseIntBase10 (some s) = some n → opts.allowZero = false → n = 0 →
        isError (parseInteger (some s) key opts) = true)
    ∧ (∀ (s key : String) (opts : ParseIntegerOptions) (n m : Int),
        jsParseIntBase10 (some s) = some n → opts.min = some m → n < m →
        isError (parseInteger (some s) key opts) = true)
    ∧ (∀ (s key : String) (opts : ParseIntegerOptions) (n m : Int),
        jsParseIntBase10 (some s) = some n → opts.max = some m → m < n →
        isError (parseInteger (some s) key opts) = true)
    ∧ (∀ (s key : String) (opts : ParseIntegerOptions) (n : Int),
        jsParseIntBase10 (some s) = some n →
        (opts.allowZero = true ∨ n ≠ 0) →
        (∀ m, opts.min = some m → m ≤ n) →
        (∀ m, opts.max = some m → n ≤ m) →
        parseInteger (some s) key opts = Except.ok n)
    ∧ parseInteger (some "12.5") "K" ⟨some 1, none, true⟩ = Except.ok 12
    ∧ isError (parseInteger (some "abc") "K" ⟨some 1, none, true⟩) = true
    ∧ isError (parseInteger (some (String.mk (List.replicate 309 '9'))) "SAVE_INTERVAL"
        ⟨some 0, none, true⟩) = true
    ∧ jsParseIntBase10 (some "9007199254740993") = some 9007199254740992 := by
  refine ⟨fun s key opts h => ?_, fun s key opts n h hz hn => ?_,
    fun s key opts n m h hmin hlt => ?_, fun s key opts n m h hmax hlt => ?_,
    fun s key opts n h hz hmin hmax => ?_, rfl, rfl, rfl, rfl⟩
  · simp [parseInteger, h, isError]
  · simp [parseInteger, h, hz, hn, isError]
  · simp only [parseInteger, h]
    split
    · rfl
    · rw [hmin]
      simp [hlt, isError]
  · simp only [parseInteger, h]
    split
    · rfl
    · split
      · rfl
      · rw [hmax]
        simp [hlt, isError]
  · simp only [parseInteger, h]
    have hc1 : (!opts.allowZero && decide (n = 0)) = false := by
      rcases hz with h1 | h1
      · simp [h1]
      · simp [h1]
    have hc2 : (match opts.min with | some m => decide (n < m) | none => false) = false := by
      cases hm : opts.min with
      | none => rfl
      | some m =>
        simp only [decide_eq_false_iff_not, not_lt]
        exact hmin m hm
    have hc3 : (match opts.max with | some m => decide (m < n) | none => false) = false := by
      cases hm : opts.max with
      | none => rfl
      | some m =>
        simp only [decide_eq_false_iff_not, not_lt]
        exact hmax m hm
    simp [hc1, hc2, hc3]

/-- Witness for C4 at a non-numeric and an in-range input. -/
theorem c4_witness :
    isError (parseInteger (some "x2") "K" ⟨none, none, true⟩) = true
    ∧ parseInteger (some "7") "K" ⟨some 1, some 10, true⟩ = Except.ok 7 := by
  constructor
  · exact c4_parseInteger.1 "x2" "K" ⟨none, none, true⟩ rfl
  · exact c4_parseInteger.2.2.2.2.1 "7" "K" ⟨some 1, some 10, true⟩ 7 rfl (Or.inl rfl)
      (fun m hm => by injection hm with h2; rw [← h2]; decide)
      (fun m hm => by injection hm with h2; rw [← h2]; decide)

/-- Claim C5: `PORT=0`, `PORT=65536` and `PORT=abc` abort construction;
`PORT=8080` gives `server.port = 8080`, an unset `PORT` gives `3000`, and
in both cases the default `public.wsUrl` embeds the resolved port. -/
theorem c5_port :
    isError (buildServerConfig (envPort "0") "/repo") = true
    ∧ isError (buildServerConfig (envPort "65536") "/repo") = true
    ∧ isError (buildServerConfig (envPort "abc") "/repo") = true
    ∧ (buildServerConfig (envPort "8080") "/repo").map (fun c => c.server.port) =
        Except.ok 8080
    ∧ (buildServerConfig envTown "/repo").map (fun c => c.server.port) = Except.ok 3000
    ∧ (buildServerConfig (envPort "8080") "/repo").map (fun c => c.publicSection.wsUrl) =
        Except.ok "ws://localhost:8080/ws"
    ∧ (buildServerConfig envTown "/repo").map (fun c => c.publicSection.wsUrl) =
        Except.ok "ws://localhost:3000/ws" :=
  ⟨rfl, rfl, rfl, rfl, rfl, rfl, rfl⟩

/-- Claim C9: `readJWT` always resolves (never rejects), with the decoded
payload when verification succeeds and with the sentinel `null` (`none`)
on any verification failure. -/
theorem c9_readJWT {α : Type} (verify : String → String → Except String α)
    (jwtSecret token : String) :
    (∀ e, readJWT verify jwtSecret token ≠ PromiseResult.rejected e)
    ∧ (∀ d, verify token jwtSecret = Except.ok d →
        readJWT verify jwtSecret token = PromiseResult.resolved (some d))
    ∧ (∀ e, verify token jwtSecret = Except.error e →
        readJWT verify jwtSecret token = PromiseResult.resolved none) := by
  refine ⟨fun e h => ?_, fun d h => ?_, fun e h => ?_⟩
  · cases hv : verify token jwtSecret <;> simp [readJWT, hv] at h
  · simp [readJWT, h]
  · simp [readJWT, h]

/-- Witness for C9 with one accepting and one rejecting verifier. -/
theorem c9_witness :
    readJWT c9VerifyOk "secret" "token" = PromiseResult.resolved (some 7)
    ∧ readJWT c9VerifyBad "secret" "token" = PromiseResult.resolved none :=
  ⟨(c9_readJWT c9VerifyOk "secret" "token").2.1 7 rfl,
   (c9_readJWT c9VerifyBad "secret" "token").2.2 "tampered" rfl⟩

/-- Claim C2 counterexample: with `allowEmpty = false` and a
whitespace-only `defaultValue`, `readEnv` returns the whitespace-only
default verbatim — so "never returns a whitespace-only value unless
allowEmpty is true" fails as stated. -/
theorem c2_counterexample :
    readEnv [] "K" ⟨false, some " ", false⟩ = Except.ok (some " ")
    ∧ jsIsWhite ' ' = true :=
  ⟨rfl, rfl⟩

/-- Claim C2 (amended): `readEnv` resolves exactly as stated (absence uses
the default, else fails when required, else yields absent; a present value
is trimmed, and a trimmed-empty value with `allowEmpty = false` follows the
same default/required logic); omitting `WORLD` or `JWT_SECRET` aborts
construction; and a whitespace-only result can only be a caller-supplied
`defaultValue`, which is returned verbatim without trimming. -/
theorem c2_readEnv :
    (∀ (env : Env) (key : String) (req ae : Bool) (d : String), jsLookup env key = none →
        readEnv env key ⟨req, some d, ae⟩ = Except.ok (some d))
    ∧ (∀ (env : Env) (key : String) (ae : Bool), jsLookup env key = none →
        readEnv env key ⟨true, none, ae⟩ =
          Except.error ("Environment variable " ++ key ++ " is required"))
    ∧ (∀ (env : Env) (key : String) (ae : Bool), jsLookup env key = none →
        readEnv env key ⟨false, none, ae⟩ = Except.ok none)
    ∧ (∀ (env : Env) (key : String) (req : Bool) (dflt : Option String) (raw : String),
        jsLookup env key = some raw →
        readEnv env key ⟨req, dflt, true⟩ = Except.ok (some (jsTrim raw)))
    ∧ (∀ (env : Env) (key : String) (req : Bool) (dflt : Option String) (ae : Bool)
        (raw : String), jsLookup env key = some raw → (jsTrim raw).toList ≠ [] →
        readEnv env key ⟨req, dflt, ae⟩ = Except.ok (some (jsTrim raw)))
    ∧ (∀ (env : Env) (key : String) (req : Bool) (raw d : String),
        jsLookup env key = some raw → (jsTrim raw).toList = [] →
        readEnv env key ⟨req, some d, false⟩ = Except.ok (some d))
    ∧ (∀ (env : Env) (key : String) (raw : String),
        jsLookup env key = some raw → (jsTrim raw).toList = [] →
        readEnv env key ⟨true, none, false⟩ =
          Except.error ("Environment variable " ++ key ++ " cannot be empty"))
    ∧ (∀ (env : Env) (key : String) (raw : String),
        jsLookup env key = some raw → (jsTrim raw).toList = [] →
        readEnv env key ⟨false, none, false⟩ = Except.ok none)
    ∧ isError (buildServerConfig envNoWorld "/repo") = true
    ∧ isError (buildServerConfig envNoJwt "/repo") = true
    ∧ (∀ (env : Env) (key : String) (opts : ReadEnvOptions) (s : String) (c : Char)
        (t : List Char), readEnv env key opts = Except.ok (some s) →
        s.toList = c :: t → (c :: t).all jsIsWhite = true → opts.defaultValue = some s) := by
  refine ⟨fun env key req ae d h => ?_, fun env key ae h => ?_, fun env key ae h => ?_,
    fun env key req dflt raw h => ?_, fun env key req dflt ae raw h hne => ?_,
    fun env key req raw d h he => ?_, fun env key raw h he => ?_, fun env key raw h he => ?_,
    rfl, rfl, fun env key opts s c t h hs hw => ?_⟩
  · simp [readEnv, h]
  · simp [readEnv, h]
  · simp [readEnv, h]
  · simp [readEnv, h]
  · simp only [readEnv, h]
    rw [decide_eq_false hne, Bool.and_false]
    simp
  · simp only [readEnv, h]
    rw [decide_eq_true he, Bool.and_true, Bool.not_false]
    simp
  · simp only [readEnv, h]
    rw [decide_eq_true he, Bool.and_true, Bool.not_false]
    simp
  · simp only [readEnv, h]
    rw [decide_eq_true he, Bool.and_true, Bool.not_false]
    simp
  · simp only [readEnv] at h
    cases hl : jsLookup env key with
    | none =>
      simp only [hl] at h
      cases hd : opts.defaultValue with
      | some d =>
        simp only [hd, Except.ok.injEq] at h
        exact h
      | none =>
        simp only [hd] at h
        cases hr : opts.required <;> simp [hr] at h
    | some raw =>
      simp only [hl] at h
      by_cases hcond : (!opts.allowEmpty && decide ((jsTrim raw).toList = [])) = true
      · rw [if_pos hcond] at h
        cases hd : opts.defaultValue with
        | some d =>
          simp only [hd, Except.ok.injEq] at h
          exact h
        | none =>
          simp only [hd] at h
          cases hr : opts.required <;> simp [hr] at h
      · rw [if_neg hcond] at h
        exfalso
        injection h with h2
        injection h2 with h3
        have hhead : jsIsWhite c = false :=
          jsTrim_head_not_white (s := raw) (by rw [h3, hs])
        rw [List.all_cons, hhead] at hw
        simp at hw

/-- Witness for C2 at present and absent keys of a concrete environment. -/
theorem c2_witness :
    readEnv envTown "WORLD" ⟨true, none, false⟩ = Except.ok (some (jsTrim "town/main"))
    ∧ readEnv envTown "PORT" ⟨false, some "3000", false⟩ = Except.ok (some "3000") :=
  ⟨c2_readEnv.2.2.2.2.1 envTown "WORLD" true none false "town/main" rfl (by decide),
   c2_readEnv.1 envTown "PORT" false false "3000" rfl⟩

/-- Claim C3 counterexample: `PUBLIC_ASSETS_URL=/` is accepted and yields
`public.assetsUrl = ""`, which neither begins with `/` nor is an absolute
URL — and stripping only one slash can also leave a trailing slash. -/
theorem c3_counterexample :
    (buildServerConfig envRootSlash "/repo").map (fun c => c.publicSection.assetsUrl) =
      Except.ok ""
    ∧ jsStartsWith "" "/" = false
    ∧ parseURL "" = none :=
  ⟨rfl, rfl, rfl⟩

/-- Claim C3 (amended): every value accepted by `normaliseUrl` is either
the serialization of an absolute URL whose scheme passes the whitelist
(when one is given) or the trimmed input when that begins with `/`; in
both cases exactly one trailing slash is stripped, so the result ends in a
slash only when the pre-strip string ended in two (and the result of
input `/` is empty). -/
theorem c3_normaliseUrl :
    (∀ (v key : String) (wl : Option (List String)) (r : String),
        normaliseUrl (some v) key wl = Except.ok r →
        (∃ url : JsURL, parseURL (jsTrim v) = some url
            ∧ (∀ l, wl = some l → l.contains url.protocol = true)
            ∧ r = replaceTrailingSlash url.serialization)
        ∨ (jsStartsWith (jsTrim v) "/" = true ∧ r = replaceTrailingSlash (jsTrim v)))
    ∧ (∀ s : String, jsEndsWith (replaceTrailingSlash s) "/" = true →
        jsEndsWith s "//" = true) := by
  constructor
  · intro v key wl r h
    simp only [normaliseUrl] at h
    cases ht : normaliseUrlTry (jsTrim v) key wl with
    | ok s0 =>
      simp only [ht] at h
      injection h with h2
      left
      cases hp : parseURL (jsTrim v) with
      | none =>
        exfalso
        have ht2 : Except.error ("TypeError: Invalid URL: " ++ jsTrim v) =
            (Except.ok s0 : Except String String) := by
          rw [← ht]
          simp [normaliseUrlTry, hp]
        exact Except.noConfusion ht2
      | some url =>
        refine ⟨url, rfl, ?_, ?_⟩
        · intro l hl
          subst hl
          by_cases hc : l.contains url.protocol = true
          · exact hc
          · exfalso
            have hcf : l.contains url.protocol = false := by
              cases hb : l.contains url.protocol
              · rfl
              · exact absurd hb hc
            have ht2 : normaliseUrlTry (jsTrim v) key (some l) =
                Except.error (key ++ " must use one of the following protocols: " ++
                  String.intercalate ", " l) := by
              simp only [normaliseUrlTry, hp, hcf, Bool.false_eq_true, if_false]
            rw [ht2] at ht
            exact Except.noConfusion ht
        · cases wl with
          | none =>
            have ht2 : (Except.ok (replaceTrailingSlash url.serialization) :
                Except String String) = Except.ok s0 := by
              rw [← ht]
              simp [normaliseUrlTry, hp]
            injection ht2 with ht3
            rw [← h2]
            exact ht3.symm
          | some wlist =>
            by_cases hc : wlist.contains url.protocol = true
            · have ht2 : (Except.ok (replaceTrailingSlash url.serialization) :
                  Except String String) = Except.ok s0 := by
                rw [← ht]
                simp only [normaliseUrlTry, hp, hc, if_true]
              injection ht2 with ht3
              rw [← h2]
              exact ht3.symm
            · exfalso
              have hcf : wlist.contains url.protocol = false := by
                cases hb : wlist.contains url.protocol
                · rfl
                · exact absurd hb hc
              have ht2 : normaliseUrlTry (jsTrim v) key (some wlist) =
                  Except.error (key ++ " must use one of the following protocols: " ++
                    String.intercalate ", " wlist) := by
                simp only [normaliseUrlTry, hp, hcf, Bool.false_eq_true, if_false]
              rw [ht2] at ht
              exact Except.noConfusion ht
    | error e =>
      simp only [ht] at h
      right
      by_cases hs : jsStartsWith (jsTrim v) "/" = true
      · rw [if_pos hs] at h
        injection h with h2
        exact ⟨hs, h2.symm⟩
      · rw [if_neg hs] at h
        exact absurd h (by simp)
  · intro s h
    exact replaceTrailingSlash_double_slash h

/-- Witness for C3 on an accepted root-relative input and a double-slash
input. -/
theorem c3_witness :
    jsStartsWith (jsTrim "/api/") "/" = true ∧ jsEndsWith "a//" "//" = true := by
  constructor
  · rcases c3_normaliseUrl.1 "/api/" "PUBLIC_API_URL" none "/api" rfl with h | h
    · obtain ⟨url, hu, -, -⟩ := h
      rw [show parseURL (jsTrim "/api/") = none from rfl] at hu
      exact Option.noConfusion hu
    · exact h.1
  · exact c3_normaliseUrl.2 "a//" rfl

/-- Claim C6: any `PUBLIC_WS_URL` that parses as an absolute URL with a
scheme outside `{ws:, wss:}` is rejected by `normaliseUrl` (so
construction fails, as it does for `http://example.com`), while
`wss://example.com/` yields `public.wsUrl = "wss://example.com"` with the
trailing slash stripped. -/
theorem c6_wsProtocol :
    (∀ (v : String) (url : JsURL), parseURL (jsTrim v) = some url →
        (["ws:", "wss:"].contains url.protocol) = false →
        isError (normaliseUrl (some v) "PUBLIC_WS_URL" (some ["ws:", "wss:"])) = true)
    ∧ isError (buildServerConfig (envWS "http://example.com") "/repo") = true
    ∧ (buildServerConfig (envWS "wss://example.com/") "/repo").map
        (fun c => c.publicSection.wsUrl) = Except.ok "wss://example.com" := by
  refine ⟨fun v url hp hc => ?_, rfl, rfl⟩
  rw [(normaliseUrl_nonwhitelisted hp hc).2]
  rfl

/-- Witness for C6 at `http://example.com`. -/
theorem c6_witness :
    isError (normaliseUrl (some "http://example.com") "PUBLIC_WS_URL"
      (some ["ws:", "wss:"])) = true :=
  c6_wsProtocol.1 "http://example.com" ⟨"http:", "http://example.com/"⟩ rfl rfl

/-- Claim C10: for a value parsing as an absolute URL with a scheme
outside the whitelist, the protocol error raised inside the `try` block is
caught by the surrounding `catch`, and since such a value cannot start
with `/`, `normaliseUrl` raises the generic "must be a valid absolute URL
or start with '/'" error instead of the protocol error — construction
still fails, but the reported constraint is the wrong one. -/
theorem c10_protocolErrorMasked :
    (∀ (v key : String) (wl : List String) (url : JsURL),
        parseURL (jsTrim v) = some url → wl.contains url.protocol = false →
        normaliseUrlTry (jsTrim v) key (some wl) =
          Except.error (key ++ " must use one of the following protocols: " ++
            String.intercalate ", " wl)
        ∧ normaliseUrl (some v) key (some wl) =
          Except.error (key ++ " must be a valid absolute URL or start with '/'"))
    ∧ isError (buildServerConfig (envWS "http://example.com") "/repo") = true := by
  exact ⟨fun v key wl url hp hc => normaliseUrl_nonwhitelisted hp hc, rfl⟩

/-- Witness for C10 at `http://example.com` against the `ws`/`wss`
whitelist. -/
theorem c10_witness :
    normaliseUrl (some "http://example.com") "PUBLIC_WS_URL" (some ["ws:", "wss:"]) =
      Except.error "PUBLIC_WS_URL must be a valid absolute URL or start with '/'" :=
  (c10_protocolErrorMasked.1 "http://example.com" "PUBLIC_WS_URL" ["ws:", "wss:"]
    ⟨"http:", "http://example.com/"⟩ rfl rfl).2

/-- Claim C7: `public.env` consists of every `PUBLIC_`-prefixed raw
environment entry overlaid with the four derived public values, which take
precedence over raw variables of the same name; only string values occur
(the model maps environment values to strings identically), and
`PUBLIC_MAX_UPLOAD_SIZE` appears as the string rendering of the integer
`public.maxUploadSize`. -/
theorem c7_publicEnv :
    (∀ (env ov : Env) (k v : String), jsLookup ov k = some v →
        jsLookup (buildPublicEnv env ov) k = some v)
    ∧ (∀ (env ov : Env) (k : String), jsLookup ov k = none →
        jsLookup (buildPublicEnv env ov) k =
          (if jsStartsWith k "PUBLIC_" = true then jsLookup env k else none))
    ∧ (buildServerConfig envPublicExtra "/repo").map
        (fun c => jsLookup c.publicSection.env "PUBLIC_WS_URL") =
        Except.ok (some "wss://example.com")
    ∧ (buildServerConfig envPublicExtra "/repo").map
        (fun c => jsLookup c.publicSection.env "PUBLIC_FOO") = Except.ok (some "bar")
    ∧ (buildServerConfig envPublicExtra "/repo").map
        (fun c => jsLookup c.publicSection.env "PUBLIC_MAX_UPLOAD_SIZE") =
        Except.ok (some "12")
    ∧ (buildServerConfig envPublicExtra "/repo").map
        (fun c => c.publicSection.maxUploadSize) = Except.ok 12
    ∧ (buildServerConfig envPublicExtra "/repo").map
        (fun c => jsLookup c.publicSection.env "WORLD") = Except.ok none := by
  refine ⟨fun env ov k v h => ?_, fun env ov k h => ?_, rfl, rfl, rfl, rfl, rfl⟩
  · rw [buildPublicEnv]
    cases hf : jsLookup (env.filter (fun kv => jsStartsWith kv.1 "PUBLIC_")) k with
    | none => rw [jsSpreadMerge_lookup_right hf, h]
    | some w => rw [jsSpreadMerge_lookup_left hf, h]; rfl
  · rw [buildPublicEnv]
    by_cases hp : jsStartsWith k "PUBLIC_" = true
    · rw [if_pos hp]
      have hfe := jsLookup_filter_pred_true (l := env) (k := k)
        (p := fun s => jsStartsWith s "PUBLIC_") hp
      cases he : jsLookup env k with
      | none =>
        rw [he] at hfe
        rw [jsSpreadMerge_lookup_right hfe, h]
      | some w =>
        rw [he] at hfe
        rw [jsSpreadMerge_lookup_left hfe, h]
        rfl
    · rw [if_neg hp]
      have hp2 : jsStartsWith k "PUBLIC_" = false := by
        cases hb : jsStartsWith k "PUBLIC_"
        · rfl
        · exact absurd hb hp
      have hfe := jsLookup_filter_pred_false (l := env) (k := k)
        (p := fun s => jsStartsWith s "PUBLIC_") hp2
      rw [jsSpreadMerge_lookup_right hfe, h]

/-- Witness for C7 on a two-entry environment with one raw public variable
and one override. -/
theorem c7_witness :
    jsLookup (buildPublicEnv [("PUBLIC_FOO", "bar")] [("PUBLIC_WS_URL", "wss://x")])
      "PUBLIC_WS_URL" = some "wss://x"
    ∧ jsLookup (buildPublicEnv [("PUBLIC_FOO", "bar")] [("PUBLIC_WS_URL", "wss://x")])
      "PUBLIC_FOO" = some "bar" := by
  constructor
  · exact c7_publicEnv.1 [("PUBLIC_FOO", "bar")] [("PUBLIC_WS_URL", "wss://x")]
      "PUBLIC_WS_URL" "wss://x" rfl
  · exact (c7_publicEnv.2.1 [("PUBLIC_FOO", "bar")] [("PUBLIC_WS_URL", "wss://x")]
      "PUBLIC_FOO" rfl).trans rfl

end Hyperfy
